import Mathlib

/-!
Verification of the voting logic of the askup question-and-answer app
(`src/app.py`, route `vote`, lines 208-248).

The embedding models:
* a vote record entry (a document `{'user_id': ..., 'type': ...}` in the
  item's `voted_by` list),
* a votable item (question or answer) with its optional `votes` and
  `voted_by` fields (the handler reads them with `.get('votes', 0)` and
  `.get('voted_by', [])`, hence `Option` with defaults),
* the two Mongo collections (`questions_collection`, `answers_collection`)
  as association lists keyed by the string form of the object id,
* the route handler `vote(item_type, item_id, vote_type)` acting for a
  session user, returning the JSON response, the new database state and a
  trace of the store effects (reads/writes) it performed.

User ids are modelled as natural numbers (the handler only compares them
for equality).  Item ids stay strings; `ObjectId(item_id)` raising
`InvalidId` on a string that is not 24 hexadecimal characters (bson's
validity rule for strings) is modelled by `isValidObjectId`, and the
handler's `except` clause turns that exception into the fixed
`'Voting failed'` 500 response.
-/

namespace Askup

/-- An entry of an item's `voted_by` list: `{'user_id': user_id, 'type': vote_type}`
(app.py line 237). -/
structure VoteEntry where
  user_id : Nat
  type : String
deriving DecidableEq, Repr

/-- A votable item (question or answer).  `votes` and `voted_by` are optional
because the handler reads them with defaults (`item.get('voted_by', [])`,
`item.get('votes', 0)`, lines 219-220); `rest` stands for the document's other
fields (title, content, ...), untouched by the vote route. -/
structure Item where
  votes : Option Int
  voted_by : Option (List VoteEntry)
  rest : Nat
deriving DecidableEq, Repr

/-- `next((vote for vote in voted_by if vote['user_id'] == user_id), None)`
(line 223): first entry of `voted_by` belonging to the user, if any. -/
def findUserVote (voted_by : List VoteEntry) (uid : Nat) : Option VoteEntry :=
  voted_by.find? (fun v => v.user_id == uid)

/-- `[vote for vote in voted_by if vote['user_id'] != user_id]` (line 229):
drop every entry of the user. -/
def removeUserVote (voted_by : List VoteEntry) (uid : Nat) : List VoteEntry :=
  voted_by.filter (fun v => v.user_id != uid)

/-- `user_vote['type'] = vote_type` (line 233): the dict found by `next` is
mutated in place, so the first entry of `voted_by` whose `user_id` matches is
replaced, the rest of the list is untouched. -/
def setFirstUserVote (voted_by : List VoteEntry) (uid : Nat) (t : String) :
    List VoteEntry :=
  match voted_by with
  | [] => []
  | v :: vs =>
    if v.user_id == uid then { v with type := t } :: vs
    else v :: setFirstUserVote vs uid t

/-- The pure core of the handler, lines 219-238: given the loaded item, the
acting user and the requested `vote_type`, compute the new `votes` value and
the new `voted_by` list. -/
def castVote (item : Item) (user_id : Nat) (vote_type : String) :
    Int × List VoteEntry :=
  let voted_by := item.voted_by.getD []
  let current_votes := item.votes.getD 0
  match findUserVote voted_by user_id with
  | some user_vote =>
    if user_vote.type = vote_type then
      -- same vote type, remove vote (lines 227-230)
      (current_votes - (if vote_type = "up" then 1 else -1),
       removeUserVote voted_by user_id)
    else
      -- different vote type, change vote (lines 231-234)
      (current_votes + (if vote_type = "up" then 2 else -2),
       setFirstUserVote voted_by user_id vote_type)
  | none =>
    -- new vote (lines 235-238)
    (current_votes + (if vote_type = "up" then 1 else -1),
     voted_by ++ [⟨user_id, vote_type⟩])

/-- The `$set` update of line 240-243 applied to the loaded item itself:
its `votes` and `voted_by` fields are overwritten, everything else kept. -/
def applyVote (item : Item) (user_id : Nat) (vote_type : String) : Item :=
  let r := castVote item user_id vote_type
  { item with votes := some r.1, voted_by := some r.2 }

/-- Which collection line 212 selects. -/
inductive Coll
  | questions
  | answers
deriving DecidableEq, Repr

/-- A Mongo collection, as an association list from the string form of the
object id to the document. -/
abbrev Store := List (String × Item)

/-- The two collections the vote route can target. -/
structure DB where
  questions : Store
  answers : Store
deriving DecidableEq, Repr

def getStore (db : DB) : Coll → Store
  | Coll.questions => db.questions
  | Coll.answers => db.answers

def setStore (db : DB) (c : Coll) (s : Store) : DB :=
  match c with
  | Coll.questions => { db with questions := s }
  | Coll.answers => { db with answers := s }

/-- `collection.find_one({'_id': ObjectId(item_id)})` (line 213). -/
def findOne (st : Store) (id : String) : Option Item :=
  (st.find? (fun p => p.1 == id)).map Prod.snd

/-- `collection.update_one({'_id': ...}, {'$set': {'votes': ..., 'voted_by': ...}})`
(lines 240-243): overwrite the two vote fields of the first document with the
given id, leaving every other document and every other field alone. -/
def updateOne (st : Store) (id : String) (votes : Int)
    (voted_by : List VoteEntry) : Store :=
  match st with
  | [] => []
  | p :: ps =>
    if p.1 == id then
      (p.1, { p.2 with votes := some votes, voted_by := some voted_by }) :: ps
    else p :: updateOne ps id votes voted_by

/-- A store operation performed by the handler, for the effect trace. -/
inductive Eff
  | read (c : Coll) (id : String)
  | write (c : Coll) (id : String)
deriving DecidableEq, Repr

/-- The collection an effect touches. -/
def Eff.coll : Eff → Coll
  | Eff.read c _ => c
  | Eff.write c _ => c

/-- The handler's possible JSON responses: `{'votes': n}` (200),
`{'error': 'Item not found'}` (404, line 216), and
`{'error': 'Voting failed'}` (500, line 248). -/
inductive Resp
  | ok (votes : Int)
  | notFound
  | votingFailed
deriving DecidableEq, Repr

def isHexChar (c : Char) : Bool :=
  c.isDigit || ('a' ≤ c && c ≤ 'f') || ('A' ≤ c && c ≤ 'F')

/-- `bson.ObjectId` accepts a string exactly when it is 24 hexadecimal
characters; on anything else its constructor raises `InvalidId`.  The handler
calls `ObjectId(item_id)` inside its `try` block (line 213). -/
def isValidObjectId (s : String) : Bool :=
  s.length == 24 && s.toList.all isHexChar

/-- `questions_collection if item_type == 'question' else answers_collection`
(line 212). -/
def targetColl (item_type : String) : Coll :=
  if item_type = "question" then Coll.questions else Coll.answers

/-- The route handler `vote(item_type, item_id, vote_type)` (lines 208-248)
acting for the session user `user_id`: returns the response, the new database
state and the trace of store effects.  An invalid `item_id` makes
`ObjectId(item_id)` raise before any store access, caught by the `except`
clause (lines 247-248). -/
def vote (db : DB) (item_type item_id : String) (user_id : Nat)
    (vote_type : String) : Resp × DB × List Eff :=
  if isValidObjectId item_id then
    let c := targetColl item_type
    match findOne (getStore db c) item_id with
    | none => (Resp.notFound, db, [Eff.read c item_id])
    | some item =>
      let r := castVote item user_id vote_type
      (Resp.ok r.1,
       setStore db c (updateOne (getStore db c) item_id r.1 r.2),
       [Eff.read c item_id, Eff.write c item_id])
  else
    (Resp.votingFailed, db, [])

/-- Net tally a `voted_by` list denotes: +1 per `up` entry, -1 per `down`
(or any other) entry. -/
def tallyOf (l : List VoteEntry) : Int :=
  (l.map (fun v => if v.type = "up" then (1 : Int) else -1)).sum

/-- At most one `voted_by` entry per user. -/
def distinctUsers (l : List VoteEntry) : Prop :=
  l.Pairwise (fun a b => a.user_id ≠ b.user_id)

/-- The invariant of the spec: at most one entry per user, and `votes` is
the sum of +1 per `up` entry and -1 per `down` entry. -/
def claimInv (item : Item) : Prop :=
  distinctUsers (item.voted_by.getD []) ∧
  item.votes.getD 0 = tallyOf (item.voted_by.getD [])

/-- Every recorded direction is the literal `"up"` or `"down"`. -/
def upDownOnly (l : List VoteEntry) : Prop :=
  ∀ v ∈ l, v.type = "up" ∨ v.type = "down"

/-- Strengthening of `claimInv` closed under voting with directions in
`{up, down}`. -/
def voteInv (item : Item) : Prop :=
  claimInv item ∧ upDownOnly (item.voted_by.getD [])

/-- A sequence of sequential `castVote` calls, each one persisted back to the
item before the next. -/
def applyCasts (item : Item) (casts : List (Nat × String)) : Item :=
  casts.foldl (fun it c => applyVote it c.1 c.2) item

/-! Helper lemmas about `setFirstUserVote`. -/

theorem setFirstUserVote_append_of_none (l : List VoteEntry) (u : Nat)
    (d d2 : String) (h : findUserVote l u = none) :
    setFirstUserVote (l ++ [⟨u, d2⟩]) u d = l ++ [⟨u, d⟩] := by
  induction l with
  | nil => simp [setFirstUserVote]
  | cons v vs ih =>
    cases hv : (v.user_id == u) with
    | true => simp [findUserVote, List.find?_cons_of_pos, hv] at h
    | false =>
      have htail : findUserVote vs u = none := by
        simpa [findUserVote, List.find?_cons_of_neg, hv] using h
      simp [setFirstUserVote, hv, ih htail]

theorem setFirstUserVote_idem (l : List VoteEntry) (u : Nat) (d1 d2 : String) :
    setFirstUserVote (setFirstUserVote l u d1) u d2 = setFirstUserVote l u d2 := by
  induction l with
  | nil => simp [setFirstUserVote]
  | cons v vs ih =>
    by_cases hv : v.user_id == u
    · simp [setFirstUserVote, hv]
    · simp only [setFirstUserVote, if_neg hv, ih]

theorem setFirstUserVote_length (l : List VoteEntry) (u : Nat) (d : String) :
    (setFirstUserVote l u d).length = l.length := by
  induction l with
  | nil => rfl
  | cons v vs ih =>
    by_cases hv : v.user_id == u
    · simp [setFirstUserVote, hv]
    · simp [setFirstUserVote, hv, ih]

theorem setFirstUserVote_getElem_ne (l : List VoteEntry) (u : Nat) (d : String)
    (i : Nat) (w : VoteEntry) (hw : l[i]? = some w) (hne : w.user_id ≠ u) :
    (setFirstUserVote l u d)[i]? = some w := by
  induction l generalizing i with
  | nil => simp at hw
  | cons v vs ih =>
    by_cases hv : v.user_id == u
    · cases i with
      | zero =>
        simp only [List.getElem?_cons_zero, Option.some_inj] at hw
        exact absurd (by rw [← hw]; exact eq_of_beq hv) hne
      | succ j =>
        simp only [List.getElem?_cons_succ] at hw
        simp [setFirstUserVote, hv, hw]
    · cases i with
      | zero =>
        simp only [List.getElem?_cons_zero] at hw
        simp [setFirstUserVote, hv, hw]
      | succ j =>
        simp only [List.getElem?_cons_succ] at hw
        simp [setFirstUserVote, hv, ih j hw]

theorem setFirstUserVote_getElem_updated (l : List VoteEntry) (u : Nat)
    (d : String) (v : VoteEntry) (hv : findUserVote l u = some v) :
    ∃ (j : Nat) (w : VoteEntry), l[j]? = some w ∧ w.user_id = u ∧
      (setFirstUserVote l u d)[j]? = some ⟨u, d⟩ := by
  induction l with
  | nil => simp [findUserVote] at hv
  | cons a as ih =>
    by_cases ha : a.user_id == u
    · refine ⟨0, a, by simp, eq_of_beq ha, ?_⟩
      have : ({ a with type := d } : VoteEntry) = ⟨u, d⟩ := by
        have := eq_of_beq ha
        cases a
        simp_all
      simp [setFirstUserVote, ha, this]
    · have htail : findUserVote as u = some v := by
        simpa [findUserVote, List.find?_cons_of_neg, ha] using hv
      obtain ⟨j, w, hw1, hw2, hw3⟩ := ih htail
      exact ⟨j + 1, w, by simpa using hw1, hw2, by simp [setFirstUserVote, ha, hw3]⟩

theorem findUserVote_append_self (l : List VoteEntry) (u : Nat) (d : String)
    (h : findUserVote l u = none) :
    findUserVote (l ++ [⟨u, d⟩]) u = some ⟨u, d⟩ := by
  induction l with
  | nil => simp [findUserVote, List.find?]
  | cons v vs ih =>
    cases hv : (v.user_id == u) with
    | true => simp [findUserVote, List.find?_cons_of_pos, hv] at h
    | false =>
      have htail : findUserVote vs u = none := by
        simpa [findUserVote, List.find?_cons_of_neg, hv] using h
      simpa [findUserVote, List.find?_cons_of_neg, hv] using ih htail

theorem removeUserVote_append_self (l : List VoteEntry) (u : Nat) (d : String)
    (h : findUserVote l u = none) :
    removeUserVote (l ++ [⟨u, d⟩]) u = l := by
  have hall : ∀ a ∈ l, (a.user_id != u) = true := by
    intro a ha
    have := List.find?_eq_none.mp h a ha
    simpa using this
  simp [removeUserVote, List.filter_append, List.filter_eq_self.mpr hall]

/-- C1 counterexample: with a prior `down` vote by user 7, casting
`"sideways"` does not behave like casting `"down"`: the literal strings are
compared, so `"sideways"` takes the flip branch (votes go to -2, the entry
becomes `(7, "sideways")`) while `"down"` takes the toggle-off branch (votes
go to 1, the entry is removed). -/
theorem castVote_sideways_ne_down :
    castVote ⟨some 0, some [⟨7, "down"⟩], 0⟩ 7 "sideways" ≠
      castVote ⟨some 0, some [⟨7, "down"⟩], 0⟩ 7 "down" := by
  decide

/-- C1 (amended): for a direction `d` other than `"up"`, `castVote` matches
casting `"down"` only when the user's prior entry is absent or reads `"up"`,
and then only in the votes tally: the `voted_by` result stores the literal
`d` where `"down"` would be stored (the result equals the `"down"` result
with the user's first entry re-labelled `d`).  When the prior entry is
neither absent nor `"up"`, branch selection compares the literal strings and
the behaviours diverge. -/
theorem castVote_nonup_matches_down (item : Item) (u : Nat) (d : String)
    (hd : d ≠ "up")
    (hprior : findUserVote (item.voted_by.getD []) u = none ∨
      ∃ v, findUserVote (item.voted_by.getD []) u = some v ∧ v.type = "up") :
    (castVote item u d).1 = (castVote item u "down").1 ∧
    (castVote item u d).2 = setFirstUserVote ((castVote item u "down").2) u d := by
  rcases hprior with h | ⟨v, hv, hvt⟩
  · simp only [castVote, h]
    refine ⟨?_, (setFirstUserVote_append_of_none _ _ _ _ h).symm⟩
    rw [if_neg hd, if_neg (by decide : ¬ ("down" : String) = "up")]
  · have h1 : ¬ v.type = d := by rw [hvt]; exact fun hh => hd hh.symm
    have h2 : ¬ v.type = "down" := by rw [hvt]; decide
    simp only [castVote, hv, if_neg h1, if_neg h2]
    refine ⟨?_, (setFirstUserVote_idem _ _ _ _).symm⟩
    rw [if_neg hd, if_neg (by decide : ¬ ("down" : String) = "up")]

/-- C1 witness: user 7 has no prior vote on the item, and casting
`"sideways"` then matches casting `"down"` in the tally, with the literal
stored in `voted_by`. -/
theorem castVote_nonup_matches_down_witness :
    ("sideways" : String) ≠ "up" ∧
    findUserVote ((⟨some 0, some [], 0⟩ : Item).voted_by.getD []) 7 = none ∧
    ((castVote ⟨some 0, some [], 0⟩ 7 "sideways").1 =
        (castVote ⟨some 0, some [], 0⟩ 7 "down").1 ∧
      (castVote ⟨some 0, some [], 0⟩ 7 "sideways").2 =
        setFirstUserVote ((castVote ⟨some 0, some [], 0⟩ 7 "down").2) 7 "sideways") :=
  ⟨by decide, by decide,
    castVote_nonup_matches_down ⟨some 0, some [], 0⟩ 7 "sideways" (by decide)
      (Or.inl (by decide))⟩

/-- C2: from `votes=0, voted_by=[]`, user 1 casts up (votes 1, entry (1,up)),
user 2 casts down (votes 0, entries (1,up),(2,down)), user 1 casts down
(flip: votes -2, entries (1,down),(2,down)). -/
theorem vote_scenario_up_down_flip :
    (applyVote ⟨some 0, some [], 0⟩ 1 "up").votes = some 1 ∧
    (applyVote ⟨some 0, some [], 0⟩ 1 "up").voted_by = some [⟨1, "up"⟩] ∧
    (applyVote (applyVote ⟨some 0, some [], 0⟩ 1 "up") 2 "down").votes = some 0 ∧
    (applyVote (applyVote ⟨some 0, some [], 0⟩ 1 "up") 2 "down").voted_by =
      some [⟨1, "up"⟩, ⟨2, "down"⟩] ∧
    (applyVote (applyVote (applyVote ⟨some 0, some [], 0⟩ 1 "up") 2 "down")
        1 "down").votes = some (-2) ∧
    (applyVote (applyVote (applyVote ⟨some 0, some [], 0⟩ 1 "up") 2 "down")
        1 "down").voted_by = some [⟨1, "down"⟩, ⟨2, "down"⟩] := by
  decide

/-- C7: when the item id is valid but no item with that id exists in the
targeted collection, the handler answers `notFound`, leaves the database
unchanged, and its only store effect is the lookup read. -/
theorem vote_notFound (db : DB) (item_type item_id : String) (user_id : Nat)
    (vote_type : String) (hid : isValidObjectId item_id = true)
    (hmiss : findOne (getStore db (targetColl item_type)) item_id = none) :
    vote db item_type item_id user_id vote_type =
      (Resp.notFound, db, [Eff.read (targetColl item_type) item_id]) := by
  simp only [vote, hid, if_true, hmiss]

/-- C7 witness: voting on a well-formed but absent id in an empty database. -/
theorem vote_notFound_witness :
    isValidObjectId "0123456789abcdef01234567" = true ∧
    findOne (getStore ⟨[], []⟩ (targetColl "question"))
      "0123456789abcdef01234567" = none ∧
    vote ⟨[], []⟩ "question" "0123456789abcdef01234567" 1 "up" =
      (Resp.notFound, ⟨[], []⟩,
        [Eff.read (targetColl "question") "0123456789abcdef01234567"]) :=
  ⟨by decide, by decide,
    vote_notFound ⟨[], []⟩ "question" "0123456789abcdef01234567" 1 "up"
      (by decide) (by decide)⟩

/-- C9: any `item_type` other than the literal `"question"` (for example
`"Question"` or `"comment"`) targets the answers collection: every store
effect the handler performs is on the answers collection, and the questions
collection is left untouched. -/
theorem vote_nonquestion_targets_answers (db : DB) (item_type item_id : String)
    (user_id : Nat) (vote_type : String) (h : item_type ≠ "question") :
    targetColl item_type = Coll.answers ∧
    (vote db item_type item_id user_id vote_type).2.1.questions = db.questions ∧
    ∀ e ∈ (vote db item_type item_id user_id vote_type).2.2,
      e.coll = Coll.answers := by
  have ht : targetColl item_type = Coll.answers := by simp [targetColl, h]
  refine ⟨ht, ?_, ?_⟩
  · simp only [vote, ht]
    split
    · split
      · rfl
      · simp [setStore]
    · rfl
  · simp only [vote, ht]
    split
    · split
      · simp [Eff.coll]
      · simp [Eff.coll]
    · simp

/-- C9 witness: the capitalised `"Question"` is not the literal and so
targets the answers collection. -/
theorem vote_nonquestion_targets_answers_witness :
    ("Question" : String) ≠ "question" ∧
    (targetColl "Question" = Coll.answers ∧
      (vote ⟨[], []⟩ "Question" "abc" 1 "up").2.1.questions =
        (⟨[], []⟩ : DB).questions ∧
      ∀ e ∈ (vote ⟨[], []⟩ "Question" "abc" 1 "up").2.2,
        e.coll = Coll.answers) :=
  ⟨by decide,
    vote_nonquestion_targets_answers ⟨[], []⟩ "Question" "abc" 1 "up" (by decide)⟩

/-- C10: when `item_id` is not a valid object id, `ObjectId(item_id)` raises
before any store access, the `except` clause answers the fixed
`'Voting failed'` 500 response (not the 404 `notFound`), and no store is read
or written: the database is unchanged and the effect trace is empty. -/
theorem vote_invalidId (db : DB) (item_type item_id : String) (user_id : Nat)
    (vote_type : String) (h : isValidObjectId item_id = false) :
    vote db item_type item_id user_id vote_type = (Resp.votingFailed, db, []) ∧
    Resp.votingFailed ≠ Resp.notFound := by
  refine ⟨?_, by decide⟩
  simp only [vote, h, Bool.false_eq_true, if_false]

/-- C10 witness: `"abc"` is not 24 hexadecimal characters. -/
theorem vote_invalidId_witness :
    isValidObjectId "abc" = false ∧
    (vote ⟨[], []⟩ "question" "abc" 1 "up" = (Resp.votingFailed, ⟨[], []⟩, []) ∧
      Resp.votingFailed ≠ Resp.notFound) :=
  ⟨by decide, vote_invalidId ⟨[], []⟩ "question" "abc" 1 "up" (by decide)⟩

/-- C3: when the user's recorded vote differs from the requested direction,
`castVote` flips: the tally moves by +2 for `up` and -2 otherwise, the list
keeps its length, every entry of another user keeps its position and value,
and the user's entry is updated in place to the new direction. -/
theorem castVote_flip (item : Item) (u : Nat) (d : String) (v : VoteEntry)
    (hv : findUserVote (item.voted_by.getD []) u = some v)
    (hne : v.type ≠ d) :
    (castVote item u d).1 = item.votes.getD 0 + (if d = "up" then 2 else -2) ∧
    (castVote item u d).2.length = (item.voted_by.getD []).length ∧
    (∀ (i : Nat) (w : VoteEntry), (item.voted_by.getD [])[i]? = some w →
      w.user_id ≠ u → (castVote item u d).2[i]? = some w) ∧
    (∃ (j : Nat) (w : VoteEntry), (item.voted_by.getD [])[j]? = some w ∧
      w.user_id = u ∧ (castVote item u d).2[j]? = some ⟨u, d⟩) := by
  simp only [castVote, hv, if_neg hne]
  exact ⟨trivial, setFirstUserVote_length _ _ _,
    fun i w hw hwu => setFirstUserVote_getElem_ne _ _ _ i w hw hwu,
    setFirstUserVote_getElem_updated _ _ _ v hv⟩

/-- C3 witness: user 1 flips an `up` vote to `down` on an item where user 3
also voted. -/
theorem castVote_flip_witness :
    findUserVote ((⟨some 5, some [⟨3, "up"⟩, ⟨1, "up"⟩], 0⟩ :
        Item).voted_by.getD []) 1 = some ⟨1, "up"⟩ ∧
    (⟨1, "up"⟩ : VoteEntry).type ≠ "down" ∧
    ((castVote ⟨some 5, some [⟨3, "up"⟩, ⟨1, "up"⟩], 0⟩ 1 "down").1 =
        (⟨some 5, some [⟨3, "up"⟩, ⟨1, "up"⟩], 0⟩ : Item).votes.getD 0 +
          (if ("down" : String) = "up" then 2 else -2) ∧
      (castVote ⟨some 5, some [⟨3, "up"⟩, ⟨1, "up"⟩], 0⟩ 1 "down").2.length =
        ((⟨some 5, some [⟨3, "up"⟩, ⟨1, "up"⟩], 0⟩ :
          Item).voted_by.getD []).length ∧
      (∀ (i : Nat) (w : VoteEntry),
        ((⟨some 5, some [⟨3, "up"⟩, ⟨1, "up"⟩], 0⟩ :
          Item).voted_by.getD [])[i]? = some w → w.user_id ≠ 1 →
        (castVote ⟨some 5, some [⟨3, "up"⟩, ⟨1, "up"⟩], 0⟩ 1 "down").2[i]? =
          some w) ∧
      (∃ (j : Nat) (w : VoteEntry),
        ((⟨some 5, some [⟨3, "up"⟩, ⟨1, "up"⟩], 0⟩ :
          Item).voted_by.getD [])[j]? = some w ∧ w.user_id = 1 ∧
        (castVote ⟨some 5, some [⟨3, "up"⟩, ⟨1, "up"⟩], 0⟩ 1 "down").2[j]? =
          some ⟨1, "down"⟩)) :=
  ⟨by decide, by decide,
    castVote_flip ⟨some 5, some [⟨3, "up"⟩, ⟨1, "up"⟩], 0⟩ 1 "down" ⟨1, "up"⟩
      (by decide) (by decide)⟩

/-- C4: starting from no recorded vote by the user, casting direction `d`
(`up` or `down`) twice is a round trip: the first cast moves the tally by +1
for `up` and -1 for `down`, and the second cast removes the user's entry and
returns both the tally and the `voted_by` list to their initial values. -/
theorem castVote_twice_roundtrip (item : Item) (u : Nat) (d : String)
    (hnone : findUserVote (item.voted_by.getD []) u = none)
    (hd : d = "up" ∨ d = "down") :
    (castVote item u d).1 = item.votes.getD 0 + (if d = "up" then 1 else -1) ∧
    (castVote (applyVote item u d) u d).1 = item.votes.getD 0 ∧
    (castVote (applyVote item u d) u d).2 = item.voted_by.getD [] ∧
    findUserVote (castVote (applyVote item u d) u d).2 u = none := by
  have hfst : (castVote item u d).1 =
      item.votes.getD 0 + (if d = "up" then 1 else -1) := by
    simp only [castVote, hnone]
  have hsnd : (castVote item u d).2 =
      (item.voted_by.getD []) ++ [⟨u, d⟩] := by
    simp only [castVote, hnone]
  have hfind2 : findUserVote ((applyVote item u d).voted_by.getD []) u =
      some ⟨u, d⟩ := by
    simp only [applyVote, hsnd, Option.getD_some]
    exact findUserVote_append_self _ _ _ hnone
  have hsame : (⟨u, d⟩ : VoteEntry).type = d := rfl
  have h2 : castVote (applyVote item u d) u d =
      ((applyVote item u d).votes.getD 0 - (if d = "up" then 1 else -1),
        removeUserVote ((applyVote item u d).voted_by.getD []) u) := by
    simp only [castVote, hfind2, if_true]
  have hvotes2 : (applyVote item u d).votes.getD 0 =
      item.votes.getD 0 + (if d = "up" then 1 else -1) := by
    simp only [applyVote, hfst, Option.getD_some]
  have hremove : removeUserVote ((applyVote item u d).voted_by.getD []) u =
      item.voted_by.getD [] := by
    simp only [applyVote, hsnd, Option.getD_some]
    exact removeUserVote_append_self _ _ _ hnone
  refine ⟨hfst, ?_, ?_, ?_⟩
  · rw [h2]
    simp [hvotes2]
  · rw [h2]
    exact hremove
  · rw [h2]
    simpa [hremove] using hnone

/-- C4 witness: user 2 casts `down` twice on an item already carrying an `up`
vote by user 9. -/
theorem castVote_twice_roundtrip_witness :
    findUserVote ((⟨some 1, some [⟨9, "up"⟩], 0⟩ :
        Item).voted_by.getD []) 2 = none ∧
    (("down" : String) = "up" ∨ ("down" : String) = "down") ∧
    ((castVote ⟨some 1, some [⟨9, "up"⟩], 0⟩ 2 "down").1 =
        (⟨some 1, some [⟨9, "up"⟩], 0⟩ : Item).votes.getD 0 +
          (if ("down" : String) = "up" then 1 else -1) ∧
      (castVote (applyVote ⟨some 1, some [⟨9, "up"⟩], 0⟩ 2 "down") 2 "down").1 =
        (⟨some 1, some [⟨9, "up"⟩], 0⟩ : Item).votes.getD 0 ∧
      (castVote (applyVote ⟨some 1, some [⟨9, "up"⟩], 0⟩ 2 "down") 2 "down").2 =
        (⟨some 1, some [⟨9, "up"⟩], 0⟩ : Item).voted_by.getD [] ∧
      findUserVote
        (castVote (applyVote ⟨some 1, some [⟨9, "up"⟩], 0⟩ 2 "down") 2 "down").2
        2 = none) :=
  ⟨by decide, Or.inr rfl,
    castVote_twice_roundtrip ⟨some 1, some [⟨9, "up"⟩], 0⟩ 2 "down" (by decide)
      (Or.inr rfl)⟩

theorem findOne_updateOne_self (st : Store) (id : String) (votes : Int)
    (voted_by : List VoteEntry) (item : Item)
    (h : findOne st id = some item) :
    findOne (updateOne st id votes voted_by) id =
      some { item with votes := some votes, voted_by := some voted_by } := by
  induction st with
  | nil => simp [findOne] at h
  | cons p ps ih =>
    cases hp : (p.1 == id) with
    | true =>
      have hpi : p.2 = item := by
        simpa [findOne, List.find?_cons_of_pos, hp] using h
      simp [findOne, updateOne, hp, List.find?_cons_of_pos, hpi]
    | false =>
      have htail : findOne ps id = some item := by
        simpa [findOne, List.find?_cons_of_neg, hp] using h
      simpa [findOne, updateOne, hp, List.find?_cons_of_neg] using ih htail

theorem getStore_setStore_same (db : DB) (c : Coll) (s : Store) :
    getStore (setStore db c s) c = s := by
  cases c <;> rfl

/-- C5: when the item exists and the user has no recorded vote on it, the
handler answers the new tally (old tally +1 for `up`, -1 otherwise), and the
stored item afterwards carries exactly that tally and the old `voted_by` with
`(user, direction)` appended at the end — both fields written by the single
update, the only write in the effect trace. -/
theorem vote_newVote (db : DB) (item_type item_id : String) (u : Nat)
    (d : String) (item : Item)
    (hid : isValidObjectId item_id = true)
    (hfind : findOne (getStore db (targetColl item_type)) item_id = some item)
    (hnone : findUserVote (item.voted_by.getD []) u = none) :
    (vote db item_type item_id u d).1 =
      Resp.ok (item.votes.getD 0 + (if d = "up" then 1 else -1)) ∧
    findOne (getStore (vote db item_type item_id u d).2.1 (targetColl item_type))
        item_id =
      some { item with
              votes := some (item.votes.getD 0 + (if d = "up" then 1 else -1)),
              voted_by := some ((item.voted_by.getD []) ++ [⟨u, d⟩]) } ∧
    (vote db item_type item_id u d).2.2 =
      [Eff.read (targetColl item_type) item_id,
       Eff.write (targetColl item_type) item_id] := by
  have hcast : castVote item u d =
      (item.votes.getD 0 + (if d = "up" then 1 else -1),
        (item.voted_by.getD []) ++ [⟨u, d⟩]) := by
    simp only [castVote, hnone]
  have hv : vote db item_type item_id u d =
      (Resp.ok (castVote item u d).1,
        setStore db (targetColl item_type)
          (updateOne (getStore db (targetColl item_type)) item_id
            (castVote item u d).1 (castVote item u d).2),
        [Eff.read (targetColl item_type) item_id,
         Eff.write (targetColl item_type) item_id]) := by
    simp only [vote, hid, if_true, hfind]
  rw [hv]
  refine ⟨by rw [hcast], ?_, rfl⟩
  rw [getStore_setStore_same, hcast]
  exact findOne_updateOne_self _ _ _ _ item hfind

/-- C5 witness: user 4 up-votes a question with one prior vote by user 8. -/
theorem vote_newVote_witness :
    isValidObjectId "aaaaaaaaaaaaaaaaaaaaaaaa" = true ∧
    findOne
      (getStore
        ⟨[("aaaaaaaaaaaaaaaaaaaaaaaa", ⟨some (-1), some [⟨8, "down"⟩], 3⟩)], []⟩
        (targetColl "question")) "aaaaaaaaaaaaaaaaaaaaaaaa" =
      some ⟨some (-1), some [⟨8, "down"⟩], 3⟩ ∧
    findUserVote
      ((⟨some (-1), some [⟨8, "down"⟩], 3⟩ : Item).voted_by.getD []) 4 = none ∧
    ((vote ⟨[("aaaaaaaaaaaaaaaaaaaaaaaa", ⟨some (-1), some [⟨8, "down"⟩], 3⟩)], []⟩
        "question" "aaaaaaaaaaaaaaaaaaaaaaaa" 4 "up").1 =
      Resp.ok ((⟨some (-1), some [⟨8, "down"⟩], 3⟩ : Item).votes.getD 0 +
        (if ("up" : String) = "up" then 1 else -1)) ∧
    findOne
      (getStore
        (vote ⟨[("aaaaaaaaaaaaaaaaaaaaaaaa", ⟨some (-1), some [⟨8, "down"⟩], 3⟩)], []⟩
          "question" "aaaaaaaaaaaaaaaaaaaaaaaa" 4 "up").2.1
        (targetColl "question")) "aaaaaaaaaaaaaaaaaaaaaaaa" =
      some { (⟨some (-1), some [⟨8, "down"⟩], 3⟩ : Item) with
              votes := some ((⟨some (-1), some [⟨8, "down"⟩], 3⟩ : Item).votes.getD 0 +
                (if ("up" : String) = "up" then 1 else -1)),
              voted_by := some
                (((⟨some (-1), some [⟨8, "down"⟩], 3⟩ : Item).voted_by.getD []) ++
                  [⟨4, "up"⟩]) } ∧
    (vote ⟨[("aaaaaaaaaaaaaaaaaaaaaaaa", ⟨some (-1), some [⟨8, "down"⟩], 3⟩)], []⟩
        "question" "aaaaaaaaaaaaaaaaaaaaaaaa" 4 "up").2.2 =
      [Eff.read (targetColl "question") "aaaaaaaaaaaaaaaaaaaaaaaa",
       Eff.write (targetColl "question") "aaaaaaaaaaaaaaaaaaaaaaaa"]) :=
  ⟨by decide, by decide, by decide,
    vote_newVote
      ⟨[("aaaaaaaaaaaaaaaaaaaaaaaa", ⟨some (-1), some [⟨8, "down"⟩], 3⟩)], []⟩
      "question" "aaaaaaaaaaaaaaaaaaaaaaaa" 4 "up"
      ⟨some (-1), some [⟨8, "down"⟩], 3⟩ (by decide) (by decide) (by decide)⟩

theorem getStore_setStore_other (db : DB) (c c2 : Coll) (s : Store)
    (h : c2 ≠ c) : getStore (setStore db c s) c2 = getStore db c2 := by
  cases c <;> cases c2 <;> first | rfl | exact absurd rfl h

theorem findOne_updateOne_other (st : Store) (id id2 : String) (votes : Int)
    (voted_by : List VoteEntry) (h : id2 ≠ id) :
    findOne (updateOne st id votes voted_by) id2 = findOne st id2 := by
  induction st with
  | nil => rfl
  | cons p ps ih =>
    cases hp : (p.1 == id) with
    | true =>
      have hp2 : (p.1 == id2) = false := by
        have hpe : p.1 = id := eq_of_beq hp
        simp only [hpe, beq_eq_false_iff_ne]
        exact fun hh => h hh.symm
      simp [findOne, updateOne, hp, List.find?_cons_of_neg, hp2]
    | false =>
      cases hp2 : (p.1 == id2) with
      | true =>
        simp [findOne, updateOne, hp, List.find?_cons_of_pos, hp2]
      | false =>
        simpa [findOne, updateOne, hp, List.find?_cons_of_neg, hp2] using ih

/-- C8: a successful vote performs exactly one read and then exactly one
write, both of the target item in the target collection; the other collection
is untouched, every other item of the target collection is unchanged, and the
written document differs from the read one only in its two vote fields
(`votes` and `voted_by`). -/
theorem vote_frame (db : DB) (item_type item_id : String) (u : Nat)
    (d : String) (item : Item)
    (hid : isValidObjectId item_id = true)
    (hfind : findOne (getStore db (targetColl item_type)) item_id = some item) :
    (vote db item_type item_id u d).2.2 =
      [Eff.read (targetColl item_type) item_id,
       Eff.write (targetColl item_type) item_id] ∧
    (∀ c2, c2 ≠ targetColl item_type →
      getStore (vote db item_type item_id u d).2.1 c2 = getStore db c2) ∧
    (∀ id2, id2 ≠ item_id →
      findOne (getStore (vote db item_type item_id u d).2.1
        (targetColl item_type)) id2 =
      findOne (getStore db (targetColl item_type)) id2) ∧
    (∃ (vt : Int) (vb : List VoteEntry),
      findOne (getStore (vote db item_type item_id u d).2.1
        (targetColl item_type)) item_id =
      some { item with votes := some vt, voted_by := some vb }) := by
  have hv : vote db item_type item_id u d =
      (Resp.ok (castVote item u d).1,
        setStore db (targetColl item_type)
          (updateOne (getStore db (targetColl item_type)) item_id
            (castVote item u d).1 (castVote item u d).2),
        [Eff.read (targetColl item_type) item_id,
         Eff.write (targetColl item_type) item_id]) := by
    simp only [vote, hid, if_true, hfind]
  rw [hv]
  refine ⟨rfl, ?_, ?_, ?_⟩
  · intro c2 hc2
    exact getStore_setStore_other db _ c2 _ hc2
  · intro id2 hid2
    rw [getStore_setStore_same]
    exact findOne_updateOne_other _ _ _ _ _ hid2
  · refine ⟨(castVote item u d).1, (castVote item u d).2, ?_⟩
    rw [getStore_setStore_same]
    exact findOne_updateOne_self _ _ _ _ item hfind

/-- C8 witness: voting on one of two answers touches only that answer. -/
theorem vote_frame_witness :
    isValidObjectId "bbbbbbbbbbbbbbbbbbbbbbbb" = true ∧
    findOne
      (getStore
        ⟨[], [("bbbbbbbbbbbbbbbbbbbbbbbb", ⟨some 2, some [⟨1, "up"⟩], 7⟩),
              ("cccccccccccccccccccccccc", ⟨some 0, some [], 9⟩)]⟩
        (targetColl "answer")) "bbbbbbbbbbbbbbbbbbbbbbbb" =
      some ⟨some 2, some [⟨1, "up"⟩], 7⟩ ∧
    ((vote ⟨[], [("bbbbbbbbbbbbbbbbbbbbbbbb", ⟨some 2, some [⟨1, "up"⟩], 7⟩),
              ("cccccccccccccccccccccccc", ⟨some 0, some [], 9⟩)]⟩
        "answer" "bbbbbbbbbbbbbbbbbbbbbbbb" 5 "up").2.2 =
      [Eff.read (targetColl "answer") "bbbbbbbbbbbbbbbbbbbbbbbb",
       Eff.write (targetColl "answer") "bbbbbbbbbbbbbbbbbbbbbbbb"] ∧
    (∀ c2, c2 ≠ targetColl "answer" →
      getStore
        (vote ⟨[], [("bbbbbbbbbbbbbbbbbbbbbbbb", ⟨some 2, some [⟨1, "up"⟩], 7⟩),
              ("cccccccccccccccccccccccc", ⟨some 0, some [], 9⟩)]⟩
          "answer" "bbbbbbbbbbbbbbbbbbbbbbbb" 5 "up").2.1 c2 =
      getStore
        ⟨[], [("bbbbbbbbbbbbbbbbbbbbbbbb", ⟨some 2, some [⟨1, "up"⟩], 7⟩),
              ("cccccccccccccccccccccccc", ⟨some 0, some [], 9⟩)]⟩ c2) ∧
    (∀ id2, id2 ≠ "bbbbbbbbbbbbbbbbbbbbbbbb" →
      findOne
        (getStore
          (vote ⟨[], [("bbbbbbbbbbbbbbbbbbbbbbbb", ⟨some 2, some [⟨1, "up"⟩], 7⟩),
              ("cccccccccccccccccccccccc", ⟨some 0, some [], 9⟩)]⟩
            "answer" "bbbbbbbbbbbbbbbbbbbbbbbb" 5 "up").2.1
          (targetColl "answer")) id2 =
      findOne
        (getStore
          ⟨[], [("bbbbbbbbbbbbbbbbbbbbbbbb", ⟨some 2, some [⟨1, "up"⟩], 7⟩),
              ("cccccccccccccccccccccccc", ⟨some 0, some [], 9⟩)]⟩
          (targetColl "answer")) id2) ∧
    (∃ (vt : Int) (vb : List VoteEntry),
      findOne
        (getStore
          (vote ⟨[], [("bbbbbbbbbbbbbbbbbbbbbbbb", ⟨some 2, some [⟨1, "up"⟩], 7⟩),
              ("cccccccccccccccccccccccc", ⟨some 0, some [], 9⟩)]⟩
            "answer" "bbbbbbbbbbbbbbbbbbbbbbbb" 5 "up").2.1
          (targetColl "answer")) "bbbbbbbbbbbbbbbbbbbbbbbb" =
      some { (⟨some 2, some [⟨1, "up"⟩], 7⟩ : Item) with
              votes := some vt, voted_by := some vb })) :=
  ⟨by decide, by decide,
    vote_frame
      ⟨[], [("bbbbbbbbbbbbbbbbbbbbbbbb", ⟨some 2, some [⟨1, "up"⟩], 7⟩),
            ("cccccccccccccccccccccccc", ⟨some 0, some [], 9⟩)]⟩
      "answer" "bbbbbbbbbbbbbbbbbbbbbbbb" 5 "up" ⟨some 2, some [⟨1, "up"⟩], 7⟩
      (by decide) (by decide)⟩

theorem tallyOf_cons (v : VoteEntry) (l : List VoteEntry) :
    tallyOf (v :: l) = (if v.type = "up" then 1 else -1) + tallyOf l := by
  simp [tallyOf]

theorem tallyOf_append (l1 l2 : List VoteEntry) :
    tallyOf (l1 ++ l2) = tallyOf l1 + tallyOf l2 := by
  simp [tallyOf]

theorem tallyOf_removeUserVote (l : List VoteEntry) (u : Nat) (v : VoteEntry)
    (hfind : findUserVote l u = some v) (hpw : distinctUsers l) :
    tallyOf (removeUserVote l u) =
      tallyOf l - (if v.type = "up" then 1 else -1) := by
  induction l with
  | nil => simp [findUserVote] at hfind
  | cons a as ih =>
    rcases List.pairwise_cons.mp hpw with ⟨hhead, htailpw⟩
    cases ha : (a.user_id == u) with
    | true =>
      have hav : a = v := by
        simpa [findUserVote, List.find?_cons_of_pos, ha] using hfind
      have hau : a.user_id = u := eq_of_beq ha
      have hkeep : ∀ b ∈ as, (b.user_id != u) = true := by
        intro b hb
        have := hhead b hb
        simp only [bne_iff_ne, ne_eq]
        rw [← hau]
        exact fun hc => this hc.symm
      have hrm : removeUserVote (a :: as) u = as := by
        have : (a.user_id != u) = false := by simp [hau]
        simp [removeUserVote, List.filter_cons, this,
          List.filter_eq_self.mpr hkeep]
      rw [hrm, tallyOf_cons, hav]
      ring
    | false =>
      have htail : findUserVote as u = some v := by
        simpa [findUserVote, List.find?_cons_of_neg, ha] using hfind
      have hrm : removeUserVote (a :: as) u = a :: removeUserVote as u := by
        have : (a.user_id != u) = true := by simpa using ha
        simp [removeUserVote, List.filter_cons, this]
      rw [hrm, tallyOf_cons, tallyOf_cons, ih htail htailpw]
      ring

theorem tallyOf_setFirstUserVote (l : List VoteEntry) (u : Nat) (d : String)
    (v : VoteEntry) (hfind : findUserVote l u = some v) :
    tallyOf (setFirstUserVote l u d) =
      tallyOf l - (if v.type = "up" then 1 else -1) +
        (if d = "up" then 1 else -1) := by
  induction l with
  | nil => simp [findUserVote] at hfind
  | cons a as ih =>
    cases ha : (a.user_id == u) with
    | true =>
      have hav : a = v := by
        simpa [findUserVote, List.find?_cons_of_pos, ha] using hfind
      have hv2 : (v.user_id == u) = true := by rw [← hav]; exact ha
      simp only [setFirstUserVote, hav, hv2, if_true, tallyOf_cons]
      ring
    | false =>
      have htail : findUserVote as u = some v := by
        simpa [findUserVote, List.find?_cons_of_neg, ha] using hfind
      simp only [setFirstUserVote, ha, Bool.false_eq_true, if_false,
        tallyOf_cons, ih htail]
      ring

theorem setFirstUserVote_map_user_id (l : List VoteEntry) (u : Nat)
    (d : String) :
    (setFirstUserVote l u d).map (fun v => v.user_id) =
      l.map (fun v => v.user_id) := by
  induction l with
  | nil => rfl
  | cons a as ih =>
    cases ha : (a.user_id == u) with
    | true => simp [setFirstUserVote, ha]
    | false => simp [setFirstUserVote, ha, ih]

theorem distinctUsers_setFirstUserVote (l : List VoteEntry) (u : Nat)
    (d : String) (h : distinctUsers l) :
    distinctUsers (setFirstUserVote l u d) := by
  have h1 : (l.map (fun v => v.user_id)).Pairwise (fun a b => a ≠ b) :=
    List.pairwise_map.mpr h
  have h3 : ((setFirstUserVote l u d).map (fun v => v.user_id)).Pairwise
      (fun a b => a ≠ b) := by
    rw [setFirstUserVote_map_user_id]
    exact h1
  exact List.pairwise_map.mp h3

theorem mem_setFirstUserVote (l : List VoteEntry) (u : Nat) (d : String)
    (w : VoteEntry) (hw : w ∈ setFirstUserVote l u d) :
    w ∈ l ∨ w.type = d := by
  induction l with
  | nil => simp [setFirstUserVote] at hw
  | cons a as ih =>
    cases ha : (a.user_id == u) with
    | true =>
      simp only [setFirstUserVote, ha, if_true, List.mem_cons] at hw
      rcases hw with hw | hw
      · exact Or.inr (by rw [hw])
      · exact Or.inl (List.mem_cons_of_mem a hw)
    | false =>
      simp only [setFirstUserVote, ha, Bool.false_eq_true, if_false,
        List.mem_cons] at hw
      rcases hw with hw | hw
      · exact Or.inl (by rw [hw]; exact List.mem_cons_self a as)
      · rcases ih hw with h | h
        · exact Or.inl (List.mem_cons_of_mem a h)
        · exact Or.inr h

theorem voteInv_applyVote (item : Item) (u : Nat) (d : String)
    (hinv : voteInv item) (hd : d = "up" ∨ d = "down") :
    voteInv (applyVote item u d) := by
  obtain ⟨⟨hpw, htally⟩, htypes⟩ := hinv
  have hup : (applyVote item u d).voted_by.getD [] = (castVote item u d).2 := rfl
  have huv : (applyVote item u d).votes.getD 0 = (castVote item u d).1 := rfl
  cases hfind : findUserVote (item.voted_by.getD []) u with
  | none =>
    have hc : castVote item u d =
        (item.votes.getD 0 + (if d = "up" then 1 else -1),
          (item.voted_by.getD []) ++ [⟨u, d⟩]) := by
      simp only [castVote, hfind]
    have hnotin : ∀ a ∈ item.voted_by.getD [], a.user_id ≠ u := by
      intro a ha
      have := List.find?_eq_none.mp hfind a ha
      simpa using this
    refine ⟨⟨?_, ?_⟩, ?_⟩
    · rw [upDownOnly] at htypes
      rw [distinctUsers, hup, hc]
      refine List.pairwise_append.mpr ⟨hpw, List.pairwise_singleton _ _, ?_⟩
      intro a ha b hb
      simp only [List.mem_singleton] at hb
      rw [hb]
      exact hnotin a ha
    · rw [hup, huv, hc]
      simp only [tallyOf_append, tallyOf_cons, tallyOf]
      simp [htally, tallyOf]
    · rw [upDownOnly, hup, hc]
      intro v hv
      rcases List.mem_append.mp hv with h | h
      · exact htypes v h
      · simp only [List.mem_singleton] at h
        rw [h]
        exact hd
  | some v =>
    have hvmem : v ∈ item.voted_by.getD [] :=
      List.mem_of_find?_eq_some hfind
    by_cases hsame : v.type = d
    · have hc : castVote item u d =
          (item.votes.getD 0 - (if d = "up" then 1 else -1),
            removeUserVote (item.voted_by.getD []) u) := by
        simp only [castVote, hfind, if_pos hsame]
      refine ⟨⟨?_, ?_⟩, ?_⟩
      · rw [distinctUsers, hup, hc]
        exact hpw.sublist (List.filter_sublist _)
      · rw [hup, huv, hc]
        rw [tallyOf_removeUserVote _ u v hfind hpw, htally, hsame]
      · rw [upDownOnly, hup, hc]
        intro w hw
        exact htypes w (List.mem_of_mem_filter hw)
    · have hc : castVote item u d =
          (item.votes.getD 0 + (if d = "up" then 2 else -2),
            setFirstUserVote (item.voted_by.getD []) u d) := by
        simp only [castVote, hfind, if_neg hsame]
      refine ⟨⟨?_, ?_⟩, ?_⟩
      · rw [distinctUsers, hup, hc]
        exact distinctUsers_setFirstUserVote _ u d hpw
      · rw [hup, huv, hc]
        rw [tallyOf_setFirstUserVote _ u d v hfind, htally]
        rcases hd with hdu | hdd
        · rcases htypes v hvmem with hvu | hvd
          · exact absurd (hvu.trans hdu.symm) hsame
          · rw [hdu, hvd,
              if_neg (show ¬ ("down" : String) = "up" by decide),
              if_pos (show ("up" : String) = "up" from rfl),
              if_pos (show ("up" : String) = "up" from rfl)]
            ring
        · rcases htypes v hvmem with hvu | hvd
          · rw [hdd, hvu,
              if_neg (show ¬ ("down" : String) = "up" by decide),
              if_neg (show ¬ ("down" : String) = "up" by decide),
              if_pos (show ("up" : String) = "up" from rfl)]
            ring
          · exact absurd (hvd.trans hdd.symm) hsame
      · rw [upDownOnly, hup, hc]
        intro w hw
        rcases mem_setFirstUserVote _ u d w hw with h | h
        · exact htypes w h
        · exact Or.elim hd (fun h2 => Or.inl (h.trans h2))
            (fun h2 => Or.inr (h.trans h2))

theorem voteInv_applyCasts (item : Item) (casts : List (Nat × String))
    (hinv : voteInv item)
    (hcasts : ∀ c ∈ casts, c.2 = "up" ∨ c.2 = "down") :
    voteInv (applyCasts item casts) := by
  induction casts generalizing item with
  | nil => exact hinv
  | cons c cs ih =>
    have hstep : voteInv (applyVote item c.1 c.2) :=
      voteInv_applyVote item c.1 c.2 hinv (hcasts c (List.mem_cons_self c cs))
    exact ih (applyVote item c.1 c.2) hstep
      (fun c2 h2 => hcasts c2 (List.mem_cons_of_mem c h2))

/-- C6: from a freshly created item (`votes=0`, `voted_by=[]`), after any
sequential sequence of casts with directions in `{up, down}` the invariant
holds: at most one `voted_by` entry per user, and `votes` equals the sum of
+1 per `up` entry and -1 per `down` entry.  (Quantifying over all such
sequences gives the invariant after each call of any longer sequence.) -/
theorem vote_invariant (rest : Nat) (casts : List (Nat × String))
    (hcasts : ∀ c ∈ casts, c.2 = "up" ∨ c.2 = "down") :
    claimInv (applyCasts ⟨some 0, some [], rest⟩ casts) := by
  have hinit : voteInv ⟨some 0, some [], rest⟩ := by
    refine ⟨⟨List.Pairwise.nil, rfl⟩, ?_⟩
    intro v hv
    simp at hv
  exact (voteInv_applyCasts _ casts hinit hcasts).1

/-- C6 witness: the three casts of the concrete scenario keep the
invariant. -/
theorem vote_invariant_witness :
    (∀ c ∈ [((1 : Nat), "up"), (2, "down"), (1, "down")],
      c.2 = "up" ∨ c.2 = "down") ∧
    claimInv (applyCasts ⟨some 0, some [], 0⟩
      [((1 : Nat), "up"), (2, "down"), (1, "down")]) :=
  ⟨by decide, vote_invariant 0 [((1 : Nat), "up"), (2, "down"), (1, "down")]
    (by decide)⟩

end Askup

section Sanity

open Askup

example : castVote ⟨some 0, some [], 0⟩ 1 "up" = (1, [⟨1, "up"⟩]) := by decide

example :
    castVote ⟨some 0, some [⟨1, "up"⟩, ⟨2, "down"⟩], 0⟩ 1 "down" =
      (-2, [⟨1, "down"⟩, ⟨2, "down"⟩]) := by decide

example : isValidObjectId "0123456789abcdef01234567" = true := by decide

example : isValidObjectId "abc" = false := by decide

end Sanity
